import Mathlib

/-!
Verification of the ohrenbaer podcast tools: catalog merge/dedup logic and
the download-and-transcode pipeline, shallowly embedded from the TypeScript
source (scraper with merge, and downloader).
-/

namespace Ohrenbaer

/-- An episode record, as in the `Podcast` interface of the source. -/
structure Podcast where
  title : String
  releaseDate : String
  downloadLink : String
  description : String
deriving DecidableEq, Repr

/-- The dedup key used by `mergePodcasts` in the scraper:
the string `title + "|" + releaseDate`. -/
def identityKey (p : Podcast) : String :=
  p.title ++ "|" ++ p.releaseDate

/-- Embedding of `mergePodcasts(existing, newPodcasts)` from the scraper:
build the set of identity keys of `existing`, keep only incoming records
whose key is not in that set, and append them to `existing`. -/
def mergePodcasts (existing newPodcasts : List Podcast) : List Podcast :=
  let existingKeys := existing.map identityKey
  existing ++ newPodcasts.filter (fun p => !(decide (identityKey p ∈ existingKeys)))

/-- A sample record used for concrete evaluations. -/
def samplePodcast : Podcast :=
  { title := "A - Ep1"
    releaseDate := "2020-01-01T00:00:00.000Z"
    downloadLink := "http://x/1.mp3"
    description := "" }

/-- Keys of the merge result: keys of `existing` followed by the keys of the
filtered incoming records. -/
theorem mergePodcasts_map_key (E N : List Podcast) :
    (mergePodcasts E N).map identityKey =
      E.map identityKey ++
        (N.filter (fun p => !(decide (identityKey p ∈ E.map identityKey)))).map identityKey := by
  simp [mergePodcasts]

/-- Every incoming record's key appears among the keys of `mergePodcasts E N`. -/
theorem key_mem_merge (E N : List Podcast) (p : Podcast) (hp : p ∈ N) :
    identityKey p ∈ (mergePodcasts E N).map identityKey := by
  rw [mergePodcasts_map_key]
  by_cases h : identityKey p ∈ E.map identityKey
  · exact List.mem_append_left _ h
  · refine List.mem_append_right _ ?_
    exact List.mem_map_of_mem identityKey (List.mem_filter.mpr ⟨hp, by simp [h]⟩)

/-- Merging the same incoming list into its own merge result adds nothing new. -/
theorem merge_filter_self_nil (E N : List Podcast) :
    N.filter
      (fun p => !(decide (identityKey p ∈ (mergePodcasts E N).map identityKey))) = [] := by
  rw [List.filter_eq_nil_iff]
  intro p hp
  simp [key_mem_merge E N p hp]

/-- Merging an incoming list with no key not already present adds nothing. -/
theorem mergePodcasts_keys_nodup (E N : List Podcast)
    (hE : (E.map identityKey).Nodup) (hN : (N.map identityKey).Nodup) :
    ((mergePodcasts E N).map identityKey).Nodup := by
  rw [mergePodcasts_map_key, List.nodup_append]
  refine ⟨hE, ?_, ?_⟩
  · exact ((List.filter_sublist N).map identityKey).nodup hN
  · intro k hkE hkF
    obtain ⟨p, hpF, hpk⟩ := List.mem_map.mp hkF
    obtain ⟨_, hpred⟩ := List.mem_filter.mp hpF
    simp only [Bool.not_eq_true', decide_eq_false_iff_not] at hpred
    exact hpred (hpk ▸ hkE)

/-- Merging into an empty catalog keeps the incoming list unchanged. -/
theorem mergePodcasts_nil_left (N : List Podcast) : mergePodcasts [] N = N := by
  simp [mergePodcasts]

/-- C1 counterexample: `mergePodcasts [] [p, p]` keeps both copies of the
same record, so the merge result has a duplicate identity key and the
incoming list is not deduplicated against itself. -/
theorem c1_counterexample :
    ¬ ((mergePodcasts [] [samplePodcast, samplePodcast]).map identityKey).Nodup ∧
      mergePodcasts [] [samplePodcast, samplePodcast] ≠ [samplePodcast] := by
  constructor
  · rw [mergePodcasts_nil_left]
    simp [identityKey]
  · rw [mergePodcasts_nil_left]
    simp

/-- C1 (amended): if the existing catalog E has no duplicate identity keys
and the incoming list N has no internal duplicate identity keys, then
`mergePodcasts E N` has no duplicate identity keys; records are
deduplicated only against the existing catalog, never within the incoming
list, so `mergePodcasts [] N = N`. -/
theorem c1_merge_nodup (E N : List Podcast)
    (hE : (E.map identityKey).Nodup) (hN : (N.map identityKey).Nodup) :
    ((mergePodcasts E N).map identityKey).Nodup ∧ mergePodcasts [] N = N :=
  ⟨mergePodcasts_keys_nodup E N hE hN, mergePodcasts_nil_left N⟩

/-- C1 witness: the amended merge theorem at a concrete catalog. -/
theorem c1_merge_nodup_witness :
    ((mergePodcasts [samplePodcast] [samplePodcast]).map identityKey).Nodup ∧
      mergePodcasts [] [samplePodcast] = [samplePodcast] :=
  c1_merge_nodup [samplePodcast] [samplePodcast] (by simp) (by simp)

/-- C6: merge is idempotent in the incoming list:
`mergePodcasts (mergePodcasts E N) N = mergePodcasts E N` for all E, N. -/
theorem c6_merge_idempotent (E N : List Podcast) :
    mergePodcasts (mergePodcasts E N) N = mergePodcasts E N := by
  conv_lhs => rw [mergePodcasts]
  rw [merge_filter_self_nil, List.append_nil]

/-- The characters matched by the downloader's regex `[/\\?%*:|"<>]`. -/
def isInvalidChar (c : Char) : Bool :=
  c = '/' || c = '\\' || c = '?' || c = '%' || c = '*' ||
    c = ':' || c = '|' || c = '\"' || c = '<' || c = '>'

/-- The character class `\s` of JavaScript regular expressions:
whitespace and line terminators per ECMA-262. -/
def isJsWhitespace (c : Char) : Bool :=
  c = '\t' || c = '\n' || c = Char.ofNat 0x0B || c = Char.ofNat 0x0C ||
    c = '\r' || c = ' ' || c = Char.ofNat 0xA0 || c = Char.ofNat 0x1680 ||
    (0x2000 ≤ c.toNat && c.toNat ≤ 0x200A) ||
    c = Char.ofNat 0x2028 || c = Char.ofNat 0x2029 || c = Char.ofNat 0x202F ||
    c = Char.ofNat 0x205F || c = Char.ofNat 0x3000 || c = Char.ofNat 0xFEFF

/-- First replacement of `sanitizeFilename`: each invalid character becomes
a dash. -/
def replaceInvalid (l : List Char) : List Char :=
  l.map (fun c => if isInvalidChar c then '-' else c)

/-- Second replacement of `sanitizeFilename`: each maximal run of
whitespace becomes a single underscore (`replace(/\s+/g, "_")`). The flag
records whether the previous character belonged to a whitespace run. -/
def collapseWs : Bool → List Char → List Char
  | _, [] => []
  | prev, c :: rest =>
    if isJsWhitespace c then
      if prev then collapseWs true rest else '_' :: collapseWs true rest
    else c :: collapseWs false rest

/-- Embedding of `sanitizeFilename` from the downloader: replace invalid
characters with a dash, then replace whitespace runs with an underscore. -/
def sanitizeFilename (s : String) : String :=
  String.mk (collapseWs false (replaceInvalid s.data))

/-- The output of the whitespace collapse contains no whitespace. -/
theorem collapseWs_no_ws (prev : Bool) (l : List Char) :
    ∀ c ∈ collapseWs prev l, isJsWhitespace c = false := by
  induction l generalizing prev with
  | nil => simp [collapseWs]
  | cons c rest ih =>
    intro d hd
    by_cases hc : isJsWhitespace c
    · by_cases hp : prev
      · rw [collapseWs, if_pos hc, if_pos hp] at hd
        exact ih true d hd
      · rw [collapseWs, if_pos hc, if_neg hp] at hd
        rcases List.mem_cons.mp hd with h | h
        · subst h; decide
        · exact ih true d h
    · rw [collapseWs, if_neg hc] at hd
      rcases List.mem_cons.mp hd with h | h
      · subst h; exact Bool.eq_false_iff.mpr hc
      · exact ih false d h

/-- The whitespace collapse leaves a whitespace-free list unchanged. -/
theorem collapseWs_eq_self (prev : Bool) (l : List Char)
    (h : ∀ c ∈ l, isJsWhitespace c = false) : collapseWs prev l = l := by
  induction l generalizing prev with
  | nil => rfl
  | cons c rest ih =>
    have hc : isJsWhitespace c = false := h c (List.mem_cons_self c rest)
    rw [collapseWs, if_neg (by simp [hc])]
    exact congrArg (c :: ·) (ih false fun d hd => h d (List.mem_cons_of_mem c hd))

/-- The invalid-character replacement leaves no invalid characters. -/
theorem replaceInvalid_no_invalid (l : List Char) :
    ∀ c ∈ replaceInvalid l, isInvalidChar c = false := by
  intro c hc
  obtain ⟨d, _, hd⟩ := List.mem_map.mp hc
  by_cases h : isInvalidChar d
  · rw [if_pos h] at hd; subst hd; decide
  · rw [if_neg h] at hd; subst hd; exact Bool.eq_false_iff.mpr h

/-- The invalid-character replacement leaves an invalid-free list unchanged. -/
theorem replaceInvalid_eq_self (l : List Char)
    (h : ∀ c ∈ l, isInvalidChar c = false) : replaceInvalid l = l := by
  rw [replaceInvalid]
  conv_rhs => rw [show l = l.map id from (List.map_id l).symm]
  exact List.map_congr_left fun c hc => by simp [h c hc]

/-- The whitespace collapse preserves the absence of invalid characters. -/
theorem collapseWs_no_invalid (prev : Bool) (l : List Char)
    (h : ∀ c ∈ l, isInvalidChar c = false) :
    ∀ c ∈ collapseWs prev l, isInvalidChar c = false := by
  induction l generalizing prev with
  | nil => simp [collapseWs]
  | cons c rest ih =>
    have hc : isInvalidChar c = false := h c (List.mem_cons_self c rest)
    have hrest : ∀ d ∈ rest, isInvalidChar d = false :=
      fun d hd => h d (List.mem_cons_of_mem c hd)
    intro d hd
    by_cases hws : isJsWhitespace c
    · by_cases hp : prev
      · rw [collapseWs, if_pos hws, if_pos hp] at hd
        exact ih true hrest d hd
      · rw [collapseWs, if_pos hws, if_neg hp] at hd
        rcases List.mem_cons.mp hd with h1 | h1
        · subst h1; decide
        · exact ih true hrest d h1
    · rw [collapseWs, if_neg hws] at hd
      rcases List.mem_cons.mp hd with h1 | h1
      · subst h1; exact hc
      · exact ih false hrest d h1

/-- C10: `sanitizeFilename` is a total Lean function and is idempotent:
sanitizing twice gives the same string as sanitizing once, for every
string, the empty string included. -/
theorem c10_sanitize_idempotent (s : String) :
    sanitizeFilename (sanitizeFilename s) = sanitizeFilename s := by
  rw [sanitizeFilename, sanitizeFilename]
  have hdata : (String.mk (collapseWs false (replaceInvalid s.data))).data =
      collapseWs false (replaceInvalid s.data) := rfl
  rw [hdata]
  have hninv : ∀ c ∈ collapseWs false (replaceInvalid s.data), isInvalidChar c = false :=
    collapseWs_no_invalid false _ (replaceInvalid_no_invalid s.data)
  rw [replaceInvalid_eq_self _ hninv]
  rw [collapseWs_eq_self false _ (collapseWs_no_ws false (replaceInvalid s.data))]

/-- Observable side effects of one task: a network fetch, a write of the
fetched body to disk, or an invocation of the external encoder. -/
inductive Effect
  | networkFetch
  | fsWrite
  | subprocess
deriving DecidableEq, Repr

/-- The environment one task runs against: the state of the filesystem at
the task's output paths and the outcomes the network, the disk and the
encoder would produce if consulted. -/
structure TaskWorld where
  destExists : Bool
  m4aExists : Bool
  fetchOk : Bool
  fetchHasBody : Bool
  streamOk : Bool
  encodeOk : Bool
deriving DecidableEq, Repr

/-- Embedding of `downloadFile(url, outputPath, force, dryRun)` from the
downloader, together with the effects it performs: skip when the file
exists and force is off; under dry-run only log; otherwise fetch, fail on
a bad status or missing body, and stream the body to disk. The boolean
result states whether the file was downloaded (`true`) or skipped
(`false`); errors are thrown. -/
def downloadFile (url outputPath : String) (w : TaskWorld) (force dryRun : Bool) :
    Except String Bool × List Effect :=
  let _ := outputPath
  if !force && w.destExists then (.ok false, [])
  else if dryRun then (.ok false, [])
  else if !w.fetchOk then (.error ("Failed to download " ++ url), [.networkFetch])
  else if !w.fetchHasBody then (.error ("No response body from " ++ url), [.networkFetch])
  else if !w.streamOk then (.error "stream failure", [.networkFetch, .fsWrite])
  else (.ok true, [.networkFetch, .fsWrite])

/-- The output path of `convertToM4A`: the `.mp3` suffix replaced by
`.m4a` (`inputPath.replace(/\.mp3$/, ".m4a")`). -/
def m4aPath (inputPath : String) : String :=
  if inputPath.endsWith ".mp3" then inputPath.dropRight 4 ++ ".m4a" else inputPath

/-- Embedding of `convertToM4A(inputPath, dryRun, force)` from the
downloader, together with the effects it performs: skip when the output
exists and force is off; under dry-run only log; otherwise run the
encoder, whose non-zero exit throws. The function returns `true`
(converted) in both the dry-run and the encode branch. -/
def convertToM4A (inputPath : String) (w : TaskWorld) (dryRun force : Bool) :
    Except String Bool × List Effect :=
  let _ := m4aPath inputPath
  if !force && w.m4aExists then (.ok false, [])
  else if dryRun then (.ok true, [])
  else if !w.encodeOk then (.error "encoder failed", [.subprocess])
  else (.ok true, [.subprocess])

/-- What one task makes observable at its boundary: a progress-bar tick
carrying a status label, or an error log line. -/
inductive TaskEvent
  | tick (status : String)
  | logError
deriving DecidableEq, Repr

/-- Embedding of the per-podcast task body built in `main`: download,
optionally convert, then tick with a status label; any thrown error is
caught at the task boundary and logged without a tick. -/
def runTask (p : Podcast) (dir : String) (w : TaskWorld)
    (force dryRun convert : Bool) : List TaskEvent :=
  let filename := sanitizeFilename p.title ++ ".mp3"
  let outputPath := dir ++ "/" ++ filename
  match (downloadFile p.downloadLink outputPath w force dryRun).fst with
  | .error _ => [.logError]
  | .ok wasDownloaded =>
    if convert then
      match (convertToM4A outputPath w dryRun force).fst with
      | .error _ => [.logError]
      | .ok wasConverted => [.tick (if wasConverted then "converted" else "skipped")]
    else
      [.tick (if wasDownloaded then "downloaded" else "skipped")]

/-- Whether the task body throws (and so is caught at the task boundary). -/
def taskThrows (p : Podcast) (dir : String) (w : TaskWorld)
    (force dryRun convert : Bool) : Bool :=
  let filename := sanitizeFilename p.title ++ ".mp3"
  let outputPath := dir ++ "/" ++ filename
  match (downloadFile p.downloadLink outputPath w force dryRun).fst with
  | .error _ => true
  | .ok _ =>
    if convert then
      match (convertToM4A outputPath w dryRun force).fst with
      | .error _ => true
      | .ok _ => false
    else false

/-- The number of ProgressReporter events among a task's observables. -/
def tickCount (events : List TaskEvent) : Nat :=
  (events.filter fun e => match e with | .tick _ => true | .logError => false).length

/-- Every task emits exactly one observable completion signal. -/
theorem runTask_length (p : Podcast) (dir : String) (w : TaskWorld)
    (force dryRun convert : Bool) :
    (runTask p dir w force dryRun convert).length = 1 := by
  rw [runTask]
  split <;> first | rfl | (split <;> first | rfl | (split <;> rfl))

/-- The downloader's CLI options, as they reach `main`. The compiled
case-insensitive title regex is abstracted as a predicate on titles. -/
structure DownloaderArgs where
  filterPred : Option (String → Bool)
  parallel : Nat
  force : Bool
  dryRun : Bool
  convert : Bool

/-- The filter step of the downloader's `main`: keep only podcasts whose
title matches the pattern, when one was given. -/
def applyFilter (args : DownloaderArgs) (podcasts : List Podcast) : List Podcast :=
  match args.filterPred with
  | none => podcasts
  | some pred => podcasts.filter fun p => pred p.title

/-- Embedding of the downloader's `main`: parse the catalog (a failure is
caught by the outer handler, which exits 1), check that `ffmpeg` resolves
(exiting 1 if not — the check is not gated on `convert`), filter, return
early when nothing is left, then run one task per remaining record. The
result is the process exit code paired with each task's observable
events, each task run against its own environment `W p`. -/
def mainRun (catalogParse : Option (List Podcast)) (ffmpegInstalled : Bool)
    (args : DownloaderArgs) (dir : String) (W : Podcast → TaskWorld) :
    Nat × List (List TaskEvent) :=
  match catalogParse with
  | none => (1, [])
  | some podcasts =>
    if ffmpegInstalled = false then (1, [])
    else
      let filtered := applyFilter args podcasts
      if filtered.length = 0 then (0, [])
      else (0, filtered.map fun p => runTask p dir (W p) args.force args.dryRun args.convert)

/-- Embedding of `readExistingPodcasts` from the scraper: an absent file
yields the empty catalog, and a read or parse failure is caught, logged,
and also yields the empty catalog. -/
def readExistingPodcasts (fileOnDisk : Bool) (parseResult : Option (List Podcast)) :
    List Podcast :=
  if fileOnDisk = false then []
  else
    match parseResult with
    | some ps => ps
    | none => []

/-- Embedding of the scraper's `main`: read the existing catalog, merge
the scraped records into it, and write the result, exiting 0. -/
def scraperMain (fileOnDisk : Bool) (parseResult : Option (List Podcast))
    (scraped : List Podcast) : Nat × List Podcast :=
  (0, mergePodcasts (readExistingPodcasts fileOnDisk parseResult) scraped)

/-- A task environment in which the fetch fails with a bad status. -/
def failingWorld : TaskWorld :=
  { destExists := false, m4aExists := false, fetchOk := false,
    fetchHasBody := true, streamOk := true, encodeOk := true }

/-- A task environment in which nothing exists yet and every operation
would succeed. -/
def emptyWorld : TaskWorld :=
  { destExists := false, m4aExists := false, fetchOk := true,
    fetchHasBody := true, streamOk := true, encodeOk := true }

/-- A task environment in which both output files already exist. -/
def fullWorld : TaskWorld :=
  { destExists := true, m4aExists := true, fetchOk := true,
    fetchHasBody := true, streamOk := true, encodeOk := true }

/-- The downloader's default options: no filter, parallel 8, no force, no
dry-run, no convert. -/
def argsDefault : DownloaderArgs :=
  { filterPred := none, parallel := 8, force := false, dryRun := false, convert := false }

/-- C2: the encoder check is not gated on `convert`. With a valid catalog
and conversion not requested, an unresolvable `ffmpeg` still aborts the
run at startup with exit code 1 before any task is dispatched. -/
theorem c2_unconditional_ffmpeg_check :
    argsDefault.convert = false ∧
      mainRun (some [samplePodcast]) false argsDefault "downloads"
        (fun _ => emptyWorld) = (1, []) :=
  ⟨rfl, rfl⟩

/-- C3 counterexample: a task whose fetch fails emits no ProgressReporter
event at all — not one event with an error marker. -/
theorem c3_counterexample :
    runTask samplePodcast "downloads" failingWorld false false false = [.logError] ∧
      tickCount (runTask samplePodcast "downloads" failingWorld false false false) ≠ 1 := by
  constructor
  · rfl
  · decide

/-- C3 (amended): every task emits exactly one observable completion
signal; it is a ProgressReporter tick with a status label when the task
body does not throw, and an error log line with no ProgressReporter event
when it does. -/
theorem c3_one_signal_per_task (p : Podcast) (dir : String) (w : TaskWorld)
    (force dryRun convert : Bool) :
    (runTask p dir w force dryRun convert).length = 1 ∧
      tickCount (runTask p dir w force dryRun convert) =
        (if taskThrows p dir w force dryRun convert then 0 else 1) := by
  refine ⟨runTask_length p dir w force dryRun convert, ?_⟩
  rw [runTask, taskThrows]
  split
  · rfl
  · split
    · split
      · rfl
      · rfl
    · rfl

/-- C4 counterexample: with dry-run set, no prior output and force off,
`convertToM4A` returns `true`, so the task reports `converted`, not
`skipped`. -/
theorem c4_counterexample :
    (convertToM4A "downloads/A_-_Ep1.mp3" emptyWorld true false).fst = Except.ok true ∧
      (Except.ok true : Except String Bool) ≠ Except.ok false :=
  ⟨rfl, by simp⟩

/-- C4 (amended): with dry-run set, `convertToM4A` never invokes a
subprocess; it returns the `skipped` outcome when the output already
exists and force is off, and otherwise returns the `converted` outcome
while only reporting the intended action. -/
theorem c4_dry_run_transcode (ip : String) (w : TaskWorld) (force : Bool) :
    (convertToM4A ip w true force).snd = [] ∧
      (force = false → w.m4aExists = true →
        (convertToM4A ip w true force).fst = Except.ok false) ∧
      (force = true ∨ w.m4aExists = false →
        (convertToM4A ip w true force).fst = Except.ok true) := by
  cases hf : force <;> cases hm : w.m4aExists <;>
    simp [convertToM4A, hf, hm]

/-- C4 witness: the amended transcode theorem at a concrete input. -/
theorem c4_dry_run_transcode_witness :
    (convertToM4A "a.mp3" emptyWorld true false).snd = [] ∧
      (convertToM4A "a.mp3" emptyWorld true false).fst = Except.ok true :=
  ⟨(c4_dry_run_transcode "a.mp3" emptyWorld false).1,
    (c4_dry_run_transcode "a.mp3" emptyWorld false).2.2 (Or.inr rfl)⟩

/-- C5 counterexample: the scraper, on an existing catalog file whose
parse fails, does not abort: it proceeds with an empty existing catalog,
writes the freshly scraped list, and exits 0. -/
theorem c5_counterexample :
    scraperMain true none [samplePodcast] = (0, [samplePodcast]) ∧
      (scraperMain true none [samplePodcast]).fst ≠ 1 :=
  ⟨by rw [scraperMain, readExistingPodcasts]; simp [mergePodcasts_nil_left], by decide⟩

/-- C5 (amended): a catalog parse failure is fatal in the downloader —
exit code 1 with no task dispatched — but in the scraper it is caught:
the run proceeds with an empty existing catalog and exits 0. -/
theorem c5_parse_failure (ffm : Bool) (args : DownloaderArgs) (dir : String)
    (W : Podcast → TaskWorld) (scraped : List Podcast) :
    mainRun none ffm args dir W = (1, []) ∧
      scraperMain true none scraped = (0, mergePodcasts [] scraped) :=
  ⟨rfl, rfl⟩

/-- C7: with force off and the destination present, the transfer returns
`skipped` with no effect at all (no network call), the transcode returns
`skipped` with no effect (no subprocess), and with dry-run set the
transfer returns `skipped` with no effect (no network call, no write). -/
theorem c7_skip_semantics (url op ip : String) (w : TaskWorld) (d f : Bool)
    (hdest : w.destExists = true) (hm4a : w.m4aExists = true) :
    downloadFile url op w false d = (Except.ok false, []) ∧
      convertToM4A ip w d false = (Except.ok false, []) ∧
      downloadFile url op w f true = (Except.ok false, []) := by
  refine ⟨?_, ?_, ?_⟩
  · simp [downloadFile, hdest]
  · simp [convertToM4A, hm4a]
  · cases f <;> simp [downloadFile, hdest]

/-- C7 witness: the skip semantics at a concrete environment. -/
theorem c7_skip_semantics_witness :
    downloadFile "http://x/1.mp3" "downloads/a.mp3" fullWorld false false =
        (Except.ok false, []) ∧
      convertToM4A "downloads/a.mp3" fullWorld false false = (Except.ok false, []) ∧
      downloadFile "http://x/1.mp3" "downloads/a.mp3" fullWorld true true =
        (Except.ok false, []) :=
  c7_skip_semantics "http://x/1.mp3" "downloads/a.mp3" "downloads/a.mp3"
    fullWorld false true rfl rfl

/-- C9: with a readable catalog and a resolvable encoder, the run exits 0
for every task environment, failing tasks included; one task is
dispatched per filtered record, each task's events depend only on its own
record and environment, and every dispatched task settles with exactly
one completion signal. -/
theorem c9_failure_isolation (podcasts : List Podcast) (args : DownloaderArgs)
    (dir : String) (W : Podcast → TaskWorld) :
    (mainRun (some podcasts) true args dir W).fst = 0 ∧
      (mainRun (some podcasts) true args dir W).snd =
        (applyFilter args podcasts).map
          (fun p => runTask p dir (W p) args.force args.dryRun args.convert) ∧
      ∀ events ∈ (mainRun (some podcasts) true args dir W).snd, events.length = 1 := by
  have hmain : mainRun (some podcasts) true args dir W =
      (0, (applyFilter args podcasts).map
        fun p => runTask p dir (W p) args.force args.dryRun args.convert) := by
    rw [mainRun]
    simp only [if_neg (by simp : ¬(true = false))]
    by_cases h : (applyFilter args podcasts).length = 0
    · rw [if_pos h, List.length_eq_zero.mp h]
      rfl
    · rw [if_neg h]
  refine ⟨by rw [hmain], by rw [hmain], ?_⟩
  rw [hmain]
  intro events hev
  obtain ⟨p, _, hp⟩ := List.mem_map.mp hev
  exact hp ▸ runTask_length p dir (W p) args.force args.dryRun args.convert

/-- C9 witness: a run whose single task fails still exits 0 and settles
that task with one error log. -/
theorem c9_failure_isolation_witness :
    (mainRun (some [samplePodcast]) true argsDefault "downloads"
        fun _ => failingWorld).fst = 0 ∧
      (mainRun (some [samplePodcast]) true argsDefault "downloads"
        fun _ => failingWorld).snd = [[TaskEvent.logError]] :=
  ⟨(c9_failure_isolation [samplePodcast] argsDefault "downloads" fun _ => failingWorld).1,
    by rfl⟩

/-- State of one scheduler run: tasks not yet started, tasks in flight,
and tasks settled. -/
structure SchedState where
  pending : Nat
  active : Nat
  settled : Nat
deriving DecidableEq, Repr

/-- Whether a scheduler transition starts a pending task or finishes an
in-flight one. -/
inductive SchedLabel
  | start
  | finish
deriving DecidableEq, Repr

/-- Modelled from the spec: the concurrency limiter is the external
`p-limit` dependency (`pLimit(argv.parallel)` in the downloader), whose
code is not part of this repository. Per the spec it is a counting
semaphore guarding task admission: a pending task may start only while
fewer than `limit` tasks are in flight, and a finished task frees its
slot, which is immediately available for admission. -/
inductive SchedStep (limit : Nat) : SchedState → SchedLabel → SchedState → Prop
  | start (s : SchedState) : 0 < s.pending → s.active < limit →
      SchedStep limit s .start ⟨s.pending - 1, s.active + 1, s.settled⟩
  | finish (s : SchedState) : 0 < s.active →
      SchedStep limit s .finish ⟨s.pending, s.active - 1, s.settled + 1⟩

/-- The states a run over `n` tasks can reach from its initial state. -/
inductive SchedReachable (limit n : Nat) : SchedState → Prop
  | init : SchedReachable limit n ⟨n, 0, 0⟩
  | step {s l s2} : SchedReachable limit n s → SchedStep limit s l s2 →
      SchedReachable limit n s2

/-- The in-flight count never exceeds the limit in any reachable state. -/
theorem sched_active_le (limit n : Nat) (s : SchedState)
    (h : SchedReachable limit n s) : s.active ≤ limit := by
  induction h with
  | init => exact Nat.zero_le limit
  | step _ hstep ih =>
    cases hstep with
    | start _ hlt => exact hlt
    | finish _ => exact Nat.le_trans (Nat.sub_le _ 1) ih

/-- C8: throughout a run, the number of in-flight tasks never exceeds the
configured parallelism; a freed slot is immediately reusable (a start
transition is enabled whenever a task is pending and a slot is free); and
with parallelism 1 a task can start only when no task is in flight, so
the second task never starts before the first has settled. -/
theorem c8_concurrency_cap (limit n : Nat) (s : SchedState)
    (h : SchedReachable limit n s) :
    s.active ≤ limit ∧
      (0 < s.pending → s.active < limit →
        SchedStep limit s .start ⟨s.pending - 1, s.active + 1, s.settled⟩) ∧
      (limit = 1 → ∀ s2, SchedStep limit s .start s2 → s.active = 0) := by
  refine ⟨sched_active_le limit n s h, fun hp hl => SchedStep.start s hp hl, ?_⟩
  intro h1 s2 hstep
  cases hstep with
  | start _ hlt => exact Nat.lt_one_iff.mp (h1 ▸ hlt)

/-- C8 witness: with parallelism 1 and three tasks, after the first task
has started and settled, a second task is in flight in a reachable state
that respects the cap. -/
theorem c8_concurrency_cap_witness :
    (⟨1, 1, 1⟩ : SchedState).active ≤ 1 ∧
      (0 < (1 : Nat) → (1 : Nat) < 1 →
        SchedStep 1 ⟨1, 1, 1⟩ .start ⟨0, 2, 1⟩) ∧
      (1 = 1 → ∀ s2, SchedStep 1 ⟨1, 1, 1⟩ .start s2 →
        (⟨1, 1, 1⟩ : SchedState).active = 0) :=
  c8_concurrency_cap 1 3 ⟨1, 1, 1⟩
    (SchedReachable.step
      (SchedReachable.step
        (SchedReachable.step SchedReachable.init
          (SchedStep.start ⟨3, 0, 0⟩ (by decide) (by decide)))
        (SchedStep.finish ⟨2, 1, 0⟩ (by decide)))
      (SchedStep.start ⟨2, 0, 1⟩ (by decide) (by decide)))

end Ohrenbaer

